import Mathlib

/-!
Shallow embedding of `src/bundle/osx_bundle.rs` from `cargo-bundle`.

The file models the macOS bundle assembler: the icon pipeline
(`create_icns_file`, its inner helper `add_icon_to_family`, and
`make_icns_image`), the metadata writer (`create_info_plist`), and the
orchestration (`bundle_project`), over an abstract file-system state.

Modelling conventions:
- Paths are lists of components (`List String`); file contents are either
  raw byte strings or a serialized icon family (the exact ICNS byte layout
  is irrelevant to every claim, so serialization stores the family value).
- A decoded raster image (`image::DynamicImage`) is its width, height,
  colour type and an opaque `pixelId` identifying the source pixel data;
  `resize_exact` keeps the `pixelId` (same source pixels, new dimensions)
  since no claim depends on pixel values, only on provenance and size.
- Fallible operations return `Except String`; environment-driven I/O
  failures (directory removal/creation, file writes, copies) are injected
  through explicit boolean flags in `Env`.
- `settings.icon_files()` is modelled as a list of already-resolved
  candidates (the per-item `icon_path?` glob-resolution errors of the
  iterator are outside the candidate-processing claims).
-/

/-! ### Rust path semantics (`Path::extension`, `PathBuf::set_extension`)

`extension()` is the portion of the final component after its last dot,
unless the only dot is the leading character; `set_extension` replaces
that portion (or appends a dotted extension when there is none). -/

/-- Index of the last occurrence of a dot in a character list, if any. -/
def lastDotIdx : List Char → Option Nat
  | [] => none
  | c :: rest =>
    match lastDotIdx rest with
    | some i => some (i + 1)
    | none => if c = '.' then some (0) else none

/-- Models Rust `Path::extension` on a single path component. -/
def rustExtension (name : String) : Option String :=
  match lastDotIdx name.toList with
  | none => none
  | some 0 => none
  | some (i + 1) => some (String.mk (name.toList.drop (i + 2)))

/-- Models Rust `PathBuf::set_extension` on a single path component
(with a non-empty new extension): the text after the last dot is
replaced; if there is no extension, a dotted extension is appended. -/
def rustSetExtension (name ext : String) : String :=
  match lastDotIdx name.toList with
  | none => name ++ "." ++ ext
  | some 0 => name ++ "." ++ ext
  | some (i + 1) => String.mk (name.toList.take (i + 1)) ++ "." ++ ext

/-! ### The `image` crate surface used by the source -/

/-- Colour types of the `image` crate that `make_icns_image` matches on;
`Other` stands for every colour type outside the four accepted ones. -/
inductive ColorType
  | RGBA8
  | RGB8
  | GrayA8
  | Gray8
  | Other
deriving DecidableEq

/-- Decoded raster image (`image::DynamicImage`): dimensions, colour type
and an opaque identifier of the underlying pixel data. -/
structure DynamicImage where
  width : Nat
  height : Nat
  color : ColorType
  pixelId : Nat
deriving DecidableEq

/-- Models `DynamicImage::resize_exact` (Lanczos3 filter abstracted): a
new image with the requested dimensions produced from the same source
pixels. -/
def resize_exact (img : DynamicImage) (w h : Nat) : DynamicImage :=
  { img with width := w, height := h }

/-! ### The `icns` crate surface used by the source -/

/-- Slot taxonomy of the icns container (the `icns::IconType` values the
pixel-size/density lookup can return). -/
inductive IconType
  | RGBA32_16x16
  | RGBA32_16x16_2x
  | RGBA32_32x32
  | RGBA32_32x32_2x
  | RGB24_48x48
  | RGBA32_64x64
  | RGBA32_128x128
  | RGBA32_128x128_2x
  | RGBA32_256x256
  | RGBA32_256x256_2x
  | RGBA32_512x512
  | RGBA32_512x512_2x
deriving DecidableEq

/-- Modelled from the spec: the closed slot taxonomy of the icns crate,
keyed by square pixel dimension and density class (the crate itself is an
external dependency, not part of this repository's sources). Double
density entries are keyed by their doubled pixel size. -/
def iconTypeForSizeAndDensity (size density : Nat) : Option IconType :=
  match size, density with
  | 16, 1 => some (IconType.RGBA32_16x16)
  | 32, 1 => some (IconType.RGBA32_32x32)
  | 48, 1 => some (IconType.RGB24_48x48)
  | 64, 1 => some (IconType.RGBA32_64x64)
  | 128, 1 => some (IconType.RGBA32_128x128)
  | 256, 1 => some (IconType.RGBA32_256x256)
  | 512, 1 => some (IconType.RGBA32_512x512)
  | 32, 2 => some (IconType.RGBA32_16x16_2x)
  | 64, 2 => some (IconType.RGBA32_32x32_2x)
  | 256, 2 => some (IconType.RGBA32_128x128_2x)
  | 512, 2 => some (IconType.RGBA32_256x256_2x)
  | 1024, 2 => some (IconType.RGBA32_512x512_2x)
  | _, _ => none

/-- Modelled from the spec: `icns::IconType::from_pixel_size_and_density`
takes the full pixel width and height plus a density and matches exact
(size, size, density) triples of the closed taxonomy; a non-square pair
matches no slot. -/
def from_pixel_size_and_density (width height density : Nat) : Option IconType :=
  if width = height then iconTypeForSizeAndDensity width density else none

/-- Pixel formats accepted by `icns::Image::from_data`. -/
inductive PixelFormat
  | RGBA
  | RGB
  | GrayAlpha
  | Gray
deriving DecidableEq

/-- An `icns::Image`: pixel format, dimensions and the (opaque) pixel
data carried over from the decoded image. -/
structure IcnsImage where
  pixel_format : PixelFormat
  width : Nat
  height : Nat
  pixelId : Nat
deriving DecidableEq

/-- An `icns::IconFamily`: the accumulated slots in insertion order. -/
abbrev IconFamily := List (IconType × IcnsImage)

/-- Models `IconFamily::has_icon_with_type`. -/
def hasIconWithType (family : IconFamily) (t : IconType) : Bool :=
  family.any (fun e => decide (e.fst = t))

/-- Lookup of the image stored for a slot (first entry with that type). -/
def lookupIcon (family : IconFamily) (t : IconType) : Option IcnsImage :=
  match family.find? (fun e => decide (e.fst = t)) with
  | some e => some e.snd
  | none => none

/-! ### Source function `make_icns_image` -/

/-- Translation of `make_icns_image`: converts a decoded image into an
icns image, failing on any colour type outside the four accepted ones. -/
def make_icns_image (img : DynamicImage) : Except String IcnsImage :=
  match img.color with
  | ColorType.RGBA8 => Except.ok ⟨PixelFormat.RGBA, img.width, img.height, img.pixelId⟩
  | ColorType.RGB8 => Except.ok ⟨PixelFormat.RGB, img.width, img.height, img.pixelId⟩
  | ColorType.GrayA8 => Except.ok ⟨PixelFormat.GrayAlpha, img.width, img.height, img.pixelId⟩
  | ColorType.Gray8 => Except.ok ⟨PixelFormat.Gray, img.width, img.height, img.pixelId⟩
  | ColorType.Other => Except.error ("unsupported ColorType")

/-! ### Source function `add_icon_to_family` -/

/-- Translation of the inner function `add_icon_to_family` of
`create_icns_file`. The Rust function mutates the family and returns
`io::Result<()>`; here the updated family is returned. The slot lookup
receives the image's full width and height, exactly as in the source
(`icns::IconType::from_pixel_size_and_density(icon.width(), icon.height(), density)`). -/
def add_icon_to_family (icon : DynamicImage) (density : Nat) (family : IconFamily) :
    Except String IconFamily :=
  match from_pixel_size_and_density icon.width icon.height density with
  | some icon_type =>
    if hasIconWithType family icon_type then Except.ok family
    else
      match make_icns_image icon with
      | Except.ok img => Except.ok (family ++ [(icon_type, img)])
      | Except.error e => Except.error e
  | none => Except.error ("No matching IconType")

/-! ### The resample target computation -/

/-- Fuel-driven largest power of two that is at most `d` (for `d ≥ 1`,
with `fuel ≥ d`). -/
def floorPow2Fuel : Nat → Nat → Nat
  | 0, _ => 1
  | fuel + 1, d => if d ≤ 1 then 1 else 2 * floorPow2Fuel fuel (d / 2)

/-- Models the source expression
`2f32.powf((orig_size as f32).log2().floor()) as u32` by its exact
integer semantics, the largest power of two at most `orig_size`
(and `0` for `orig_size = 0`, as in the source, where `powf` of the
floored `-inf` logarithm casts to `0`). The `f32` computation agrees
with this exact formula on all realistic icon dimensions; it can diverge
only for dimensions around `2 ^ 21` and above, where `f32` rounding of
the logarithm (or, beyond `2 ^ 24`, of the `u32` to `f32` conversion
itself) intervenes — see the C6 discussion in the results. -/
def next_size_down (d : Nat) : Nat :=
  if d = 0 then 0 else floorPow2Fuel d d

/-! ### File-system model -/

/-- File contents: raw bytes, or a serialized icon family (the binary
ICNS layout is abstracted as the family value). -/
inductive FileContent
  | raw (data : String)
  | icns (family : IconFamily)
deriving DecidableEq

/-- Abstract file-system state: the list of existing paths, each mapped
to `none` for a directory or `some c` for a file with content `c`.
Later entries are shadowed by earlier ones. -/
structure FileSys where
  entries : List (List String × Option FileContent)
deriving DecidableEq

/-- Models `Path::exists`: a path exists if it is, or is an ancestor of,
a recorded entry. -/
def pathExists (fs : FileSys) (p : List String) : Bool :=
  fs.entries.any (fun e => p.isPrefixOf e.fst)

/-- Models `fs::remove_dir_all`: removes the path and everything below
it. -/
def removeDirAll (fs : FileSys) (p : List String) : FileSys :=
  ⟨fs.entries.filter (fun e => !(p.isPrefixOf e.fst))⟩

/-- Non-empty initial segments of a path: the chain of directories that
`fs::create_dir_all` materializes. -/
def initialSegments (p : List String) : List (List String) :=
  (List.range p.length).map (fun i => p.take (i + 1))

/-- Models `fs::create_dir_all`. -/
def createDirAll (fs : FileSys) (p : List String) : FileSys :=
  ⟨(initialSegments p).map (fun q => (q, none)) ++ fs.entries⟩

/-- Records a file write. -/
def writeFileEntry (fs : FileSys) (p : List String) (c : FileContent) : FileSys :=
  ⟨(p, some c) :: fs.entries⟩

/-- Modelled from the spec: `common::copy_file` (whose source file is not
under `src/`) performs a byte-for-byte copy, creating the destination's
parent directories first. -/
def copy_file (fs : FileSys) (dest : List String) (c : FileContent) : FileSys :=
  writeFileEntry (createDirAll fs dest.dropLast) dest c

/-- Content stored at a path, if any. -/
def readFile (fs : FileSys) (p : List String) : Option FileContent :=
  match fs.entries.find? (fun e => decide (e.fst = p)) with
  | some e => e.snd
  | none => none

/-! ### Settings and environment -/

/-- An icon candidate: its file name (final path component), the
double-density marker of `common::is_retina` (modelled from the spec:
a recognized high-resolution marker in the file stem), its raw content,
and the outcome of `image::open` on it. -/
structure IconCandidate where
  file_name : String
  is_retina : Bool
  content : String
  decode : Except String DynamicImage

/-- The slice of `Settings` that `osx_bundle.rs` reads. -/
structure Settings where
  bundle_name : String
  binary_name : String
  bundle_identifier : String
  version_string : String
  copyright_string : Option String
  icon_files : List IconCandidate
  resource_files : List (List String × String)
  binary_content : String
  project_out_directory : List String

/-- Environment-driven I/O failures, one flag per fallible step of the
source that is outside the candidate data itself. -/
structure Env where
  remove_fails : Bool
  create_fails : Bool
  icns_io_fails : Bool
  plist_fails : Bool
  copy_fails : Bool

/-! ### Source function `create_icns_file` -/

/-- Translation of the first processing loop of `create_icns_file`:
decode each candidate, compute its density and square-reduced size, and
either defer it for resizing (when the size exceeds the next power of
two down) or classify-and-add it directly. Failures propagate through
`try!`, aborting the whole function, exactly as in the source. -/
def icnsPass1 : List IconCandidate → IconFamily → List (DynamicImage × Nat × Nat) →
    Except String (IconFamily × List (DynamicImage × Nat × Nat))
  | [], family, toResize => Except.ok (family, toResize)
  | c :: rest, family, toResize =>
    match c.decode with
    | Except.error e => Except.error e
    | Except.ok icon =>
      let density : Nat := if c.is_retina then 2 else 1
      let orig_size := min icon.width icon.height
      let nsd := next_size_down orig_size
      if orig_size > nsd then
        icnsPass1 rest family (toResize ++ [(icon, nsd, density)])
      else
        match add_icon_to_family icon density family with
        | Except.ok family => icnsPass1 rest family toResize
        | Except.error e => Except.error e

/-- Translation of the second loop of `create_icns_file`: each deferred
image is resized exactly once to its power-of-two target and then
classified-and-added, with failures again propagating. -/
def icnsPass2 : List (DynamicImage × Nat × Nat) → IconFamily → Except String IconFamily
  | [], family => Except.ok family
  | (icon, nsd, density) :: rest, family =>
    match add_icon_to_family (resize_exact icon nsd nsd) density family with
    | Except.ok family => icnsPass2 rest family
    | Except.error e => Except.error e

/-- Candidate filter of the native-extension scan. -/
def hasIcnsExt (c : IconCandidate) : Bool :=
  decide (rustExtension c.file_name = some ("icns"))

/-- Translation of `create_icns_file`: empty candidate list short-circuit,
native `.icns` verbatim-copy scan, the two processing passes, and the
final serialization (or the `bail!` when the family ends up empty). -/
def create_icns_file (env : Env) (resources_dir : List String) (s : Settings)
    (fs : FileSys) : Except String (Option (List String) × FileSys) :=
  if s.icon_files.length = 0 then Except.ok (none, fs)
  else
    match s.icon_files.find? hasIcnsExt with
    | some c =>
      let dest := resources_dir ++ [c.file_name]
      Except.ok (some dest, copy_file fs dest (FileContent.raw c.content))
    | none =>
      match icnsPass1 s.icon_files [] [] with
      | Except.error e => Except.error e
      | Except.ok (family, toResize) =>
        match icnsPass2 toResize family with
        | Except.error e => Except.error e
        | Except.ok family =>
          if family.isEmpty then Except.error ("No usable icon files found.")
          else if env.icns_io_fails then Except.error ("icns io failed")
          else
            let fs := createDirAll fs resources_dir
            let dest := resources_dir ++ [rustSetExtension s.bundle_name "icns"]
            Except.ok (some dest, writeFileEntry fs dest (FileContent.icns family))

/-! ### Source function `create_info_plist` -/

/-- Final component of a path (`Path::file_name`). -/
def pathFileName (p : List String) : String :=
  p.getLastD ""

/-- Translation of the exact text that `create_info_plist` writes (the
sequence of `write!` calls, with Rust line continuations resolved). -/
def create_info_plist_content (bundle_icon_file : Option String) (s : Settings) : String :=
  "<?xml version=\"1.0\" encoding=\"UTF-8\"?>\n<!DOCTYPE plist PUBLIC \"-//Apple Computer//DTD PLIST 1.0//EN\" \"http://www.apple.com/DTDs/PropertyList-1.0.dtd\">\n<plist version=\"1.0\">\n<dict>\n"
  ++ "  <key>CFBundleDevelopmentRegion</key>\n  <string>English</string>\n"
  ++ "  <key>CFBundleDisplayName</key>\n  <string>" ++ s.bundle_name ++ "</string>\n"
  ++ "  <key>CFBundleExecutable</key>\n  <string>" ++ s.binary_name ++ "</string>\n"
  ++ (match bundle_icon_file with
      | some name => "  <key>CFBundleIconFile</key>\n  <string>" ++ name ++ "</string>\n"
      | none => "")
  ++ "  <key>CFBundleIdentifier</key>\n  <string>" ++ s.bundle_identifier ++ "</string>\n"
  ++ "  <key>CFBundleInfoDictionaryVersion</key>\n  <string>6.0</string>\n"
  ++ "  <key>CFBundleName</key>\n  <string>" ++ s.bundle_name ++ "</string>\n"
  ++ "  <key>CFBundlePackageType</key>\n  <string>APPL</string>\n"
  ++ "  <key>CFBundleVersion</key>\n  <string>" ++ s.version_string ++ "</string>\n"
  ++ "  <key>CSResourcesFileMapped</key>\n  <true/>\n"
  ++ "  <key>LSRequiresCarbon</key>\n  <true/>\n"
  ++ "  <key>NSHighResolutionCapable</key>\n  <true/>\n"
  ++ (match s.copyright_string with
      | some copyright => "  <key>NSHumanReadableCopyright</key>\n  <string>" ++ copyright ++ "</string>\n"
      | none => "")
  ++ "</dict>\n</plist>\n"

/-- Translation of `create_info_plist`: writes the document into
`Info.plist` under the Contents directory; the icon reference uses only
the file name of the icon path. -/
def create_info_plist (env : Env) (bundle_dir : List String)
    (bundle_icon_file : Option (List String)) (s : Settings) (fs : FileSys) :
    Except String FileSys :=
  if env.plist_fails then Except.error ("Failed to create Info.plist")
  else
    Except.ok (writeFileEntry fs (bundle_dir ++ ["Info.plist"])
      (FileContent.raw (create_info_plist_content (bundle_icon_file.map pathFileName) s)))

/-! ### Source function `bundle_project` -/

/-- Resource copy loop of `bundle_project` (relative destination paths
are carried on the resource entries; `common::resource_relpath` is an
external helper not under `src/`). -/
def copy_resources (env : Env) (resources_dir : List String) :
    List (List String × String) → FileSys → Except String FileSys
  | [], fs => Except.ok fs
  | (rel, content) :: rest, fs =>
    if env.copy_fails then Except.error ("Failed to copy resource file")
    else copy_resources env resources_dir rest
      (copy_file fs (resources_dir ++ rel) (FileContent.raw content))

/-- Translation of `copy_binary_to_bundle`. -/
def copy_binary_to_bundle (env : Env) (bundle_dir : List String) (s : Settings)
    (fs : FileSys) : Except String FileSys :=
  if env.copy_fails then Except.error ("Failed to copy binary")
  else Except.ok (copy_file fs (bundle_dir ++ ["MacOS", s.binary_name])
    (FileContent.raw s.binary_content))

/-- The bundle root `<out>/bundle/osx/<name>.app` that `bundle_project`
computes. -/
def app_bundle_path (s : Settings) : List String :=
  s.project_out_directory ++ ["bundle", "osx", s.bundle_name ++ ".app"]

/-- Translation of `bundle_project`: remove any existing bundle tree,
create the Contents directory, run the icon pipeline (whose error is
wrapped and propagated by `?`, aborting the assembly), write Info.plist,
copy resources and the binary, and return the bundle path. -/
def bundle_project (env : Env) (s : Settings) (fs : FileSys) :
    Except String (List (List String) × FileSys) :=
  let app_bundle_name := s.bundle_name ++ ".app"
  match (if pathExists fs (app_bundle_path s) then
          (if env.remove_fails then
            Except.error ("Failed to remove old " ++ app_bundle_name)
          else Except.ok (removeDirAll fs (app_bundle_path s)))
        else (Except.ok fs : Except String FileSys)) with
  | Except.error e => Except.error e
  | Except.ok fs1 =>
    if env.create_fails then Except.error ("Failed to create bundle directory")
    else
      let bundle_directory := app_bundle_path s ++ ["Contents"]
      let fs2 := createDirAll fs1 bundle_directory
      let resources_dir := bundle_directory ++ ["Resources"]
      match create_icns_file env resources_dir s fs2 with
      | Except.error e => Except.error ("Failed to create app icon: " ++ e)
      | Except.ok (bundle_icon_file, fs3) =>
        match create_info_plist env bundle_directory bundle_icon_file s fs3 with
        | Except.error e => Except.error e
        | Except.ok fs4 =>
          match copy_resources env resources_dir s.resource_files fs4 with
          | Except.error e => Except.error e
          | Except.ok fs5 =>
            match copy_binary_to_bundle env bundle_directory s fs5 with
            | Except.error e => Except.error e
            | Except.ok fs6 => Except.ok ([app_bundle_path s], fs6)

/-! ### Derived views of the candidate processing, used to state the
amended claims (these follow the spec's vocabulary; the pipeline above is
the translation of the source) -/

/-- Density class of a candidate, from the filename convention. -/
def densityOf (c : IconCandidate) : Nat :=
  if c.is_retina then 2 else 1

/-- Candidate data visible without decoding it: file name, density
marker, and raw content. -/
def forgetDecode (c : IconCandidate) : String × Bool × String :=
  (c.file_name, c.is_retina, c.content)

/-- Decoded images that the first pass classifies directly (those whose
square-reduced size is already a power of two), in input order. -/
def directEntries : List IconCandidate → List (DynamicImage × Nat)
  | [] => []
  | c :: rest =>
    match c.decode with
    | Except.error _ => directEntries rest
    | Except.ok icon =>
      if min icon.width icon.height > next_size_down (min icon.width icon.height) then
        directEntries rest
      else (icon, densityOf c) :: directEntries rest

/-- Decoded images deferred for resampling (square-reduced size above
the next power of two down), with their targets, in input order. -/
def resizeTriples : List IconCandidate → List (DynamicImage × Nat × Nat)
  | [] => []
  | c :: rest =>
    match c.decode with
    | Except.error _ => resizeTriples rest
    | Except.ok icon =>
      if min icon.width icon.height > next_size_down (min icon.width icon.height) then
        (icon, next_size_down (min icon.width icon.height), densityOf c) :: resizeTriples rest
      else resizeTriples rest

/-- The deferred images after their single resize, in input order. -/
def resizeEntries (cs : List IconCandidate) : List (DynamicImage × Nat) :=
  (resizeTriples cs).map (fun e => (resize_exact e.1 e.2.1 e.2.1, e.2.2))

/-- Folding `add_icon_to_family` over a list of processed images. -/
def foldAddFamily : List (DynamicImage × Nat) → IconFamily → Except String IconFamily
  | [], family => Except.ok family
  | (icon, density) :: rest, family =>
    match add_icon_to_family icon density family with
    | Except.ok family => foldAddFamily rest family
    | Except.error e => Except.error e

/-- The icns image of the first entry in a processed list that
classifies to a given slot. -/
def firstClassifiedImage : List (DynamicImage × Nat) → IconType → Option IcnsImage
  | [], _ => none
  | (icon, density) :: rest, t =>
    match from_pixel_size_and_density icon.width icon.height density with
    | some t1 => if t1 = t then (make_icns_image icon).toOption else firstClassifiedImage rest t
    | none => firstClassifiedImage rest t

/-- Content stored at a path in the file system produced by a successful
`create_icns_file` run. -/
def resultFamily (r : Except String (Option (List String) × FileSys)) (p : List String) :
    Option FileContent :=
  match r with
  | Except.ok (_, fs) => readFile fs p
  | _ => none

/-! ### Concrete inputs used by counterexamples and witnesses -/

/-- Environment with no injected I/O failures. -/
def env0 : Env := ⟨false, false, false, false, false⟩

/-- Environment where creating the bundle directory fails. -/
def envCF : Env := ⟨false, true, false, false, false⟩

/-- Empty initial file system. -/
def fs0 : FileSys := ⟨[]⟩

/-- Minimal settings shared by the concrete runs. -/
def baseSettings : Settings :=
  { bundle_name := "App", binary_name := "app", bundle_identifier := "com.example.app",
    version_string := "1.0", copyright_string := none, icon_files := [],
    resource_files := [], binary_content := "BIN", project_out_directory := ["t"] }

/-- A 1024 by 1024 standard-density image: decodes fine but matches no
slot of the taxonomy. -/
def c1024 : IconCandidate := ⟨"huge.png", false, "B1", Except.ok ⟨1024, 1024, ColorType.RGBA8, 1⟩⟩

/-- A perfectly usable 128 by 128 candidate. -/
def c128 : IconCandidate := ⟨"ok.png", false, "B2", Except.ok ⟨128, 128, ColorType.RGBA8, 2⟩⟩

/-- A candidate whose decoding fails. -/
def cbad : IconCandidate := ⟨"bad.png", false, "B0", Except.error ("decode error")⟩

/-- A 300 by 300 candidate (resampled to 256), pixel data 1. -/
def c300 : IconCandidate := ⟨"big.png", false, "B3", Except.ok ⟨300, 300, ColorType.RGBA8, 1⟩⟩

/-- A 256 by 256 candidate (classified directly), pixel data 2. -/
def c256 : IconCandidate := ⟨"mid.png", false, "B4", Except.ok ⟨256, 256, ColorType.RGBA8, 2⟩⟩

/-- A 48 by 48 candidate: its size has a direct slot in the taxonomy,
but 48 is not a power of two. -/
def c48 : IconCandidate := ⟨"mid48.png", false, "B5", Except.ok ⟨48, 48, ColorType.RGBA8, 7⟩⟩

/-- A non-square 256 by 300 candidate whose smaller edge is a power of
two. -/
def cNonSq : IconCandidate := ⟨"wide.png", false, "B6", Except.ok ⟨256, 300, ColorType.RGBA8, 9⟩⟩

/-- A pre-made container file among the candidates; its decode field is
an error to witness that it is never decoded. -/
def cIcnsFile : IconCandidate := ⟨"pre.icns", false, "ICNSBYTES", Except.error ("never decoded")⟩

/-- A raster candidate listed before the container file; its decode
field is an error to witness that it is never decoded. -/
def cRaster : IconCandidate := ⟨"first.png", false, "B7", Except.error ("never decoded either")⟩

/-- Settings with an unclassifiable first candidate and a usable second
one. -/
def s1 : Settings := { baseSettings with icon_files := [c1024, c128] }

/-- Settings whose only candidate fails to decode. -/
def s2 : Settings := { baseSettings with icon_files := [cbad] }

/-- Settings with two candidates that classify to the same slot, the
resampled one listed first. -/
def s3 : Settings := { baseSettings with icon_files := [c300, c256] }

/-- Settings with the single 48 by 48 candidate. -/
def s4 : Settings := { baseSettings with icon_files := [c48] }

/-- Settings with the single non-square candidate. -/
def s5 : Settings := { baseSettings with icon_files := [cNonSq] }

/-- Settings with a raster candidate listed before a native container
candidate. -/
def s7 : Settings := { baseSettings with icon_files := [cRaster, cIcnsFile] }

/-- Settings with a dotted bundle name and one usable candidate. -/
def sDot : Settings :=
  { baseSettings with
    bundle_name := "My.App",
    icon_files := [c128] }

/-- The bundle root of `baseSettings`. -/
def p9 : List String := ["t", "bundle", "osx", "App.app"]

/-- A file system already holding an old bundle tree with a stale file. -/
def fs9 : FileSys := ⟨[(p9 ++ ["old.txt"], some (FileContent.raw "stale"))]⟩

/-! ## Helper lemmas about families and the fold of `add_icon_to_family` -/

/-- Appending a fresh slot changes the lookup only at that slot. -/
theorem lookupIcon_append_single (f : IconFamily) (t0 t : IconType) (img : IcnsImage) :
    lookupIcon (f ++ [(t0, img)]) t =
      match lookupIcon f t with
      | some x => some x
      | none => if t0 = t then some img else none := by
  unfold lookupIcon
  rw [List.find?_append]
  cases hf : f.find? (fun e => decide (e.fst = t)) with
  | some e => simp [Option.or]
  | none =>
    by_cases ht : t0 = t
    · simp [Option.or, List.find?_cons, ht]
    · simp [Option.or, List.find?_cons, ht]

/-- An absent slot has no stored image. -/
theorem hasIconWithType_false_lookup (f : IconFamily) (t : IconType)
    (h : hasIconWithType f t = false) : lookupIcon f t = none := by
  unfold lookupIcon
  cases hf : f.find? (fun e => decide (e.fst = t)) with
  | none => rfl
  | some e =>
    exfalso
    have hs : (f.find? (fun e => decide (e.fst = t))).isSome = true := by rw [hf]; rfl
    rw [List.find?_isSome] at hs
    obtain ⟨x, hx, hp⟩ := hs
    have ht : hasIconWithType f t = true := by
      unfold hasIconWithType
      rw [List.any_eq_true]
      exact ⟨x, hx, hp⟩
    rw [h] at ht
    exact Bool.false_ne_true ht

/-- An occupied slot has a stored image. -/
theorem hasIconWithType_true_lookup (f : IconFamily) (t : IconType)
    (h : hasIconWithType f t = true) : ∃ x, lookupIcon f t = some x := by
  unfold hasIconWithType at h
  rw [List.any_eq_true] at h
  have hs : (f.find? (fun e => decide (e.fst = t))).isSome = true := by
    rw [List.find?_isSome]; exact h
  rw [Option.isSome_iff_exists] at hs
  obtain ⟨e, he⟩ := hs
  exact ⟨e.snd, by unfold lookupIcon; rw [he]⟩

/-- Appending a fresh slot preserves distinctness of the slot keys. -/
theorem keys_nodup_append_single (f : IconFamily) (t0 : IconType) (img : IcnsImage)
    (hf : (f.map Prod.fst).Nodup) (h : hasIconWithType f t0 = false) :
    (((f ++ [(t0, img)]).map Prod.fst)).Nodup := by
  rw [List.map_append, List.nodup_append]
  refine ⟨hf, List.nodup_singleton _, ?_⟩
  intro a ha hb
  simp only [List.map_cons, List.map_nil, List.mem_singleton] at hb
  rw [hb] at ha
  rw [List.mem_map] at ha
  obtain ⟨e, he, hfst⟩ := ha
  have ht : hasIconWithType f t0 = true := by
    unfold hasIconWithType
    rw [List.any_eq_true]
    exact ⟨e, he, by simp [hfst]⟩
  rw [h] at ht
  exact Bool.false_ne_true ht

/-- The fold of `add_icon_to_family` splits over list append. -/
theorem foldAddFamily_append (l1 l2 : List (DynamicImage × Nat)) (f : IconFamily) :
    foldAddFamily (l1 ++ l2) f =
      match foldAddFamily l1 f with
      | Except.ok g => foldAddFamily l2 g
      | Except.error e => Except.error e := by
  induction l1 generalizing f with
  | nil => rfl
  | cons hd tl ih =>
    obtain ⟨icon, density⟩ := hd
    simp only [List.cons_append, foldAddFamily]
    cases hadd : add_icon_to_family icon density f with
    | ok g => exact ih g
    | error e => rfl

/-- First-wins invariant of the fold: after a successful fold, a slot
holds the image of the first processed entry that classifies to it (or
whatever the starting family already held there). -/
theorem foldAddFamily_lookup (t : IconType) (l : List (DynamicImage × Nat))
    (f f2 : IconFamily) (h : foldAddFamily l f = Except.ok f2) :
    lookupIcon f2 t =
      match lookupIcon f t with
      | some x => some x
      | none => firstClassifiedImage l t := by
  induction l generalizing f with
  | nil =>
    simp only [foldAddFamily, Except.ok.injEq] at h
    subst h
    cases hl : lookupIcon f t <;> simp [firstClassifiedImage]
  | cons hd rest ih =>
    obtain ⟨icon, density⟩ := hd
    simp only [foldAddFamily] at h
    cases hadd : add_icon_to_family icon density f with
    | error e => rw [hadd] at h; cases h
    | ok g =>
      rw [hadd] at h
      have hrest : foldAddFamily rest g = Except.ok f2 := h
      unfold add_icon_to_family at hadd
      split at hadd
      case h_2 hcls => cases hadd
      case h_1 t0 hcls =>
        split at hadd
        case isTrue hHas =>
          have hg : g = f := by
            simp only [Except.ok.injEq] at hadd
            exact hadd.symm
          subst hg
          rw [ih g hrest]
          cases hl : lookupIcon g t with
          | some x => simp
          | none =>
            simp only [firstClassifiedImage, hcls]
            by_cases ht : t0 = t
            · exfalso
              rw [ht] at hHas
              obtain ⟨x, hx⟩ := hasIconWithType_true_lookup g t hHas
              rw [hx] at hl
              cases hl
            · rw [if_neg ht]
        case isFalse hHas =>
          split at hadd
          case h_2 e hmk => cases hadd
          case h_1 img hmk =>
            have hg : g = f ++ [(t0, img)] := by
              simp only [Except.ok.injEq] at hadd
              exact hadd.symm
            subst hg
            rw [ih _ hrest, lookupIcon_append_single]
            cases hl : lookupIcon f t with
            | some x => simp
            | none =>
              simp only [firstClassifiedImage, hcls]
              by_cases ht : t0 = t
              · rw [if_pos ht, if_pos ht, hmk]
                rfl
              · rw [if_neg ht, if_neg ht]

/-- A successful fold never duplicates a slot key. -/
theorem foldAddFamily_keys_nodup (l : List (DynamicImage × Nat)) (f f2 : IconFamily)
    (h : foldAddFamily l f = Except.ok f2) (hf : (f.map Prod.fst).Nodup) :
    (f2.map Prod.fst).Nodup := by
  induction l generalizing f with
  | nil =>
    simp only [foldAddFamily, Except.ok.injEq] at h
    subst h
    exact hf
  | cons hd rest ih =>
    obtain ⟨icon, density⟩ := hd
    simp only [foldAddFamily] at h
    cases hadd : add_icon_to_family icon density f with
    | error e => rw [hadd] at h; cases h
    | ok g =>
      rw [hadd] at h
      have hrest : foldAddFamily rest g = Except.ok f2 := h
      unfold add_icon_to_family at hadd
      split at hadd
      case h_2 hcls => cases hadd
      case h_1 t0 hcls =>
        split at hadd
        case isTrue hHas =>
          have hg : g = f := by
            simp only [Except.ok.injEq] at hadd
            exact hadd.symm
          subst hg
          exact ih g hrest hf
        case isFalse hHas =>
          split at hadd
          case h_2 e hmk => cases hadd
          case h_1 img hmk =>
            have hg : g = f ++ [(t0, img)] := by
              simp only [Except.ok.injEq] at hadd
              exact hadd.symm
            subst hg
            have hHasF : hasIconWithType f t0 = false := by
              cases hx : hasIconWithType f t0
              · rfl
              · exact absurd hx hHas
            exact ih _ hrest (keys_nodup_append_single f t0 img hf hHasF)

/-- Characterization of the first loop of `create_icns_file`: it adds
exactly the candidates whose square-reduced size is a power of two, in
input order, and defers exactly the others, in input order. -/
theorem icnsPass1_spec (cs : List IconCandidate) :
    ∀ (family : IconFamily) (tr : List (DynamicImage × Nat × Nat)) family1 tr1,
    icnsPass1 cs family tr = Except.ok (family1, tr1) →
    foldAddFamily (directEntries cs) family = Except.ok family1 ∧
    tr1 = tr ++ resizeTriples cs := by
  induction cs with
  | nil =>
    intro family tr f1 t1 h
    simp only [icnsPass1, Except.ok.injEq, Prod.mk.injEq] at h
    obtain ⟨h1, h2⟩ := h
    subst h1; subst h2
    simp [directEntries, resizeTriples, foldAddFamily]
  | cons c rest ih =>
    intro family tr f1 t1 h
    simp only [icnsPass1] at h
    cases hdec : c.decode with
    | error e => rw [hdec] at h; cases h
    | ok icon =>
      rw [hdec] at h
      simp only at h
      by_cases hsz : min icon.width icon.height > next_size_down (min icon.width icon.height)
      · rw [if_pos hsz] at h
        obtain ⟨h1, h2⟩ := ih _ _ _ _ h
        constructor
        · simpa [directEntries, hdec, hsz] using h1
        · rw [h2]
          simp [resizeTriples, hdec, hsz, densityOf]
      · rw [if_neg hsz] at h
        cases hadd : add_icon_to_family icon (if c.is_retina then 2 else 1) family with
        | error e => rw [hadd] at h; cases h
        | ok fam2 =>
          rw [hadd] at h
          obtain ⟨h1, h2⟩ := ih _ _ _ _ h
          constructor
          · simp only [directEntries, hdec, if_neg hsz]
            simp only [foldAddFamily, densityOf]
            rw [hadd]
            exact h1
          · rw [h2]
            simp [resizeTriples, hdec, hsz]

/-- Characterization of the second loop of `create_icns_file`: it is the
fold of `add_icon_to_family` over the deferred images, each resized
exactly once. -/
theorem icnsPass2_spec (tr : List (DynamicImage × Nat × Nat)) :
    ∀ family fam2, icnsPass2 tr family = Except.ok fam2 →
    foldAddFamily (tr.map (fun e => (resize_exact e.1 e.2.1 e.2.1, e.2.2))) family
      = Except.ok fam2 := by
  induction tr with
  | nil => intro family fam2 h; exact h
  | cons hd rest ih =>
    intro family fam2 h
    obtain ⟨icon, nsd, density⟩ := hd
    simp only [icnsPass2] at h
    cases hadd : add_icon_to_family (resize_exact icon nsd nsd) density family with
    | error e => rw [hadd] at h; cases h
    | ok g =>
      rw [hadd] at h
      simp only [List.map_cons, foldAddFamily]
      rw [hadd]
      exact ih _ _ h

/-! ## Remaining helper lemmas -/

/-- When the native-extension scan finds a candidate, `create_icns_file`
returns the verbatim copy of that candidate. -/
theorem create_icns_file_of_find (env : Env) (rd : List String) (s : Settings)
    (fs : FileSys) (c : IconCandidate)
    (h : s.icon_files.find? hasIcnsExt = some c) :
    create_icns_file env rd s fs =
      Except.ok (some (rd ++ [c.file_name]),
        copy_file fs (rd ++ [c.file_name]) (FileContent.raw c.content)) := by
  have hne : s.icon_files.length ≠ 0 := by
    intro hz
    rw [List.length_eq_zero] at hz
    rw [hz] at h
    cases h
  unfold create_icns_file
  rw [if_neg hne, h]

/-- The native-extension scan depends only on the decode-free candidate
data. -/
theorem find?_hasIcnsExt_congr (l1 l2 : List IconCandidate)
    (h : l1.map forgetDecode = l2.map forgetDecode) :
    Option.map forgetDecode (l1.find? hasIcnsExt)
      = Option.map forgetDecode (l2.find? hasIcnsExt) := by
  induction l1 generalizing l2 with
  | nil =>
    cases l2 with
    | nil => rfl
    | cons b bs => cases h
  | cons a as ih =>
    cases l2 with
    | nil => cases h
    | cons b bs =>
      simp only [List.map_cons, List.cons.injEq] at h
      obtain ⟨hab, hrest⟩ := h
      have hfn : a.file_name = b.file_name := congrArg (fun x => x.1) hab
      have hpred : hasIcnsExt a = hasIcnsExt b := by
        unfold hasIcnsExt
        rw [hfn]
      rw [List.find?_cons, List.find?_cons, ← hpred]
      cases hp : hasIcnsExt a
      · exact ih bs hrest
      · simp only [Option.map]
        rw [hab]

/-- Reading back a just-written file yields its content. -/
theorem readFile_writeFileEntry (fs : FileSys) (p : List String) (c : FileContent) :
    readFile (writeFileEntry fs p c) p = some c := by
  unfold readFile writeFileEntry
  simp [List.find?_cons]

/-- After `removeDirAll`, the removed root no longer exists. -/
theorem pathExists_removeDirAll_self (fs : FileSys) (p : List String) :
    pathExists (removeDirAll fs p) p = false := by
  unfold pathExists removeDirAll
  rw [Bool.eq_false_iff]
  intro hany
  rw [List.any_eq_true] at hany
  obtain ⟨e, he, hp⟩ := hany
  rw [List.mem_filter] at he
  obtain ⟨h1, hne⟩ := he
  rw [hp] at hne
  simp at hne

/-- Left identity of string append. -/
theorem str_empty_append (s : String) : "" ++ s = s := by
  cases s
  rfl

/-! ## Claim theorems -/

/-- C1 (code bug evidence): contrary to the claim (and to the source's
own comment, which says images whose sizes match no ICNS icon type are
ignored and encode failures are skipped with a warning), a per-candidate
failure aborts `create_icns_file` entirely: with a decodable but
unclassifiable 1024 by 1024 standard-density first candidate followed by
a perfectly usable 128 by 128 candidate, the whole run fails with the
first candidate's error instead of skipping it and continuing. -/
theorem create_icns_aborts_on_unmatched_candidate :
    create_icns_file env0 ["R"] s1 fs0 = Except.error ("No matching IconType") := rfl

/-- C2 (code bug evidence): contrary to the claim (and to
`create_icns_file`'s own doc comment, which promises `Ok(None)` when no
usable icons were provided), when a candidate was supplied and fails,
the error propagates through the `?` in `bundle_project` and the whole
assembly aborts instead of succeeding without an icon. -/
theorem bundle_project_fails_when_all_candidates_fail :
    bundle_project env0 s2 fs0 = Except.error ("Failed to create app icon: decode error") := rfl

/-- C3 (counterexample): with candidates `[c300, c256]` — a 300 by 300
image (input position one, resampled to 256) and a 256 by 256 image
(input position two, classified directly), both standard density and
both classifying to the 256-pixel slot — the final family holds exactly
one entry for that slot, but it is the image of the SECOND candidate in
input order (pixel data 2, added during the first pass), not the first
(pixel data 1, whose resampled copy arrives only in the second pass and
is skipped), refuting input-order duplicate resolution. -/
theorem duplicate_slot_input_order_cex :
    resultFamily (create_icns_file env0 ["R"] s3 fs0) ["R", "App.icns"] =
      some (FileContent.icns [(IconType.RGBA32_256x256, ⟨PixelFormat.RGBA, 256, 256, 2⟩)]) ∧
    from_pixel_size_and_density 256 256 1 = some (IconType.RGBA32_256x256) ∧
    (⟨PixelFormat.RGBA, 256, 256, 2⟩ : IcnsImage) ≠ ⟨PixelFormat.RGBA, 256, 256, 1⟩ := by
  refine ⟨rfl, rfl, ?_⟩
  decide

/-- C3 (amended): after a successful run of the two processing loops,
the family has exactly one entry per slot, and each slot holds the image
of the first candidate IN PROCESSING ORDER that classifies to it — where
the processing order is all directly-classified candidates in input
order, followed by all resampled candidates in input order (not plain
input order, as the original claim stated). -/
theorem duplicate_slot_first_processed_wins (cs : List IconCandidate)
    (f1 fam : IconFamily) (tr : List (DynamicImage × Nat × Nat))
    (h1 : icnsPass1 cs [] [] = Except.ok (f1, tr))
    (h2 : icnsPass2 tr f1 = Except.ok fam) :
    (fam.map Prod.fst).Nodup ∧
    ∀ t, lookupIcon fam t = firstClassifiedImage (directEntries cs ++ resizeEntries cs) t := by
  obtain ⟨hd, htr⟩ := icnsPass1_spec cs [] [] f1 tr h1
  simp only [List.nil_append] at htr
  subst htr
  have h2m := icnsPass2_spec _ f1 fam h2
  have hcomb : foldAddFamily (directEntries cs ++ resizeEntries cs) [] = Except.ok fam := by
    rw [foldAddFamily_append, hd]
    simpa [resizeEntries] using h2m
  refine ⟨foldAddFamily_keys_nodup _ _ _ hcomb (by simp), fun t => ?_⟩
  have hl := foldAddFamily_lookup t _ _ _ hcomb
  simpa [lookupIcon] using hl

/-- C3 (witness): the amended theorem applied to the concrete duplicate
pair `[c300, c256]`. -/
theorem duplicate_slot_first_processed_wins_witness :
    (([(IconType.RGBA32_256x256, (⟨PixelFormat.RGBA, 256, 256, 2⟩ : IcnsImage))].map
        Prod.fst).Nodup) ∧
    ∀ t, lookupIcon [(IconType.RGBA32_256x256, ⟨PixelFormat.RGBA, 256, 256, 2⟩)] t =
      firstClassifiedImage (directEntries [c300, c256] ++ resizeEntries [c300, c256]) t :=
  duplicate_slot_first_processed_wins [c300, c256]
    [(IconType.RGBA32_256x256, ⟨PixelFormat.RGBA, 256, 256, 2⟩)]
    [(IconType.RGBA32_256x256, ⟨PixelFormat.RGBA, 256, 256, 2⟩)]
    [(⟨300, 300, ColorType.RGBA8, 1⟩, 256, 1)]
    rfl rfl

/-- C4 (counterexample): a 48 by 48 standard-density candidate has a
direct slot in the taxonomy (`RGB24_48x48`), yet the pipeline never
attempts that direct classification: because 48 is not a power of two it
resamples to 32 unconditionally, and the family ends up holding a 32 by
32 image in the 32-pixel slot — refuting "direct classification is
attempted first and resampling only on its failure". -/
theorem resample_despite_direct_slot_cex :
    from_pixel_size_and_density 48 48 1 = some (IconType.RGB24_48x48) ∧
    resultFamily (create_icns_file env0 ["R"] s4 fs0) ["R", "App.icns"] =
      some (FileContent.icns [(IconType.RGBA32_32x32, ⟨PixelFormat.RGBA, 32, 32, 7⟩)]) :=
  ⟨rfl, rfl⟩

/-- C4 (amended): whether a candidate is resampled is decided purely by
the power-of-two arithmetic test on min(width, height) — with no prior
classification attempt — and each candidate is classified exactly once:
the first loop defers exactly the candidates whose square-reduced size
exceeds the next power of two down (`resizeTriples`) and folds a single
classification over the rest in input order (`directEntries`), and the
second loop is a single resize followed by a single classification per
deferred candidate (`resizeEntries`), with no iterative shrink loop. -/
theorem resample_decided_by_size_arithmetic (cs : List IconCandidate)
    (f1 : IconFamily) (tr : List (DynamicImage × Nat × Nat))
    (h : icnsPass1 cs [] [] = Except.ok (f1, tr)) :
    tr = resizeTriples cs ∧
    foldAddFamily (directEntries cs) [] = Except.ok f1 ∧
    ∀ family fam2, icnsPass2 tr family = Except.ok fam2 →
      foldAddFamily (resizeEntries cs) family = Except.ok fam2 := by
  obtain ⟨hd, htr⟩ := icnsPass1_spec cs [] [] f1 tr h
  simp only [List.nil_append] at htr
  refine ⟨htr, hd, fun family fam2 h2 => ?_⟩
  have h2m := icnsPass2_spec tr family fam2 h2
  rw [htr] at h2m
  simpa [resizeEntries] using h2m

/-- C4 (witness): the amended theorem applied to the single 48 by 48
candidate, which is deferred for resampling. -/
theorem resample_decided_by_size_arithmetic_witness :
    ([(⟨48, 48, ColorType.RGBA8, 7⟩, 32, 1)] : List (DynamicImage × Nat × Nat))
        = resizeTriples [c48] ∧
    foldAddFamily (directEntries [c48]) [] = Except.ok [] ∧
    ∀ family fam2,
      icnsPass2 [(⟨48, 48, ColorType.RGBA8, 7⟩, 32, 1)] family = Except.ok fam2 →
      foldAddFamily (resizeEntries [c48]) family = Except.ok fam2 :=
  resample_decided_by_size_arithmetic [c48] [] [(⟨48, 48, ColorType.RGBA8, 7⟩, 32, 1)] rfl

/-- C5 (counterexample): a non-square 256 by 300 candidate whose smaller
edge (256) is a power of two makes the run fail with "No matching
IconType", although the min-keyed lookup the claim describes matches the
256-pixel slot — so the slot lookup receives the full (width, height)
pair, not min(width, height). -/
theorem classification_uses_full_pair_cex :
    create_icns_file env0 ["R"] s5 fs0 = Except.error ("No matching IconType") ∧
    from_pixel_size_and_density (min 256 300) (min 256 300) 1
      = some (IconType.RGBA32_256x256) :=
  ⟨rfl, rfl⟩

/-- C5 (amended): the slot lookup receives the image's full width and
height (min(width, height) is used only for the resample decision), so
every non-square image fails classification and `add_icon_to_family`
returns the "No matching IconType" error that `try!` then propagates. -/
theorem nonsquare_never_classified (icon : DynamicImage) (density : Nat)
    (family : IconFamily) (h : icon.width ≠ icon.height) :
    add_icon_to_family icon density family = Except.error ("No matching IconType") := by
  unfold add_icon_to_family from_pixel_size_and_density
  rw [if_neg h]

/-- C5 (witness): the amended theorem applied to the 256 by 300 image. -/
theorem nonsquare_never_classified_witness :
    add_icon_to_family ⟨256, 300, ColorType.RGBA8, 9⟩ 1 []
      = Except.error ("No matching IconType") :=
  nonsquare_never_classified ⟨256, 300, ColorType.RGBA8, 9⟩ 1 [] (by decide)

/-- C7: if any candidate has the native `.icns` extension, the first
such candidate (`find?` over the input order) is copied verbatim into
the resources directory and returned as the icon file, and no candidate
is ever decoded: the result is unchanged under arbitrary replacement of
every candidate's decode outcome (and of every other settings field). -/
theorem native_icns_short_circuit (env : Env) (rd : List String) (s : Settings)
    (fs : FileSys) (h : s.icon_files.any hasIcnsExt = true) :
    ∃ c, s.icon_files.find? hasIcnsExt = some c ∧
      create_icns_file env rd s fs =
        Except.ok (some (rd ++ [c.file_name]),
          copy_file fs (rd ++ [c.file_name]) (FileContent.raw c.content)) ∧
      ∀ tset : Settings,
        tset.icon_files.map forgetDecode = s.icon_files.map forgetDecode →
        create_icns_file env rd tset fs = create_icns_file env rd s fs := by
  have hs : (s.icon_files.find? hasIcnsExt).isSome = true := by
    rw [List.find?_isSome]
    rw [List.any_eq_true] at h
    exact h
  rw [Option.isSome_iff_exists] at hs
  obtain ⟨c, hc⟩ := hs
  refine ⟨c, hc, create_icns_file_of_find env rd s fs c hc, fun tset ht => ?_⟩
  have hmap := find?_hasIcnsExt_congr tset.icon_files s.icon_files ht
  rw [hc] at hmap
  cases hc2 : tset.icon_files.find? hasIcnsExt with
  | none => rw [hc2] at hmap; cases hmap
  | some c2 =>
    rw [hc2] at hmap
    simp only [Option.map, Option.some.injEq] at hmap
    have hfn : c2.file_name = c.file_name := congrArg (fun x => x.1) hmap
    have hct : c2.content = c.content := congrArg (fun x => x.2.2) hmap
    rw [create_icns_file_of_find env rd tset fs c2 hc2,
      create_icns_file_of_find env rd s fs c hc, hfn, hct]

/-- C7 (witness): the theorem applied to a raster candidate listed
before a native container candidate; both carry failing decode fields,
so the successful run also exhibits that neither was decoded. -/
theorem native_icns_short_circuit_witness :
    ∃ c, s7.icon_files.find? hasIcnsExt = some c ∧
      create_icns_file env0 ["R"] s7 fs0 =
        Except.ok (some (["R"] ++ [c.file_name]),
          copy_file fs0 (["R"] ++ [c.file_name]) (FileContent.raw c.content)) ∧
      ∀ tset : Settings,
        tset.icon_files.map forgetDecode = s7.icon_files.map forgetDecode →
        create_icns_file env0 ["R"] tset fs0 = create_icns_file env0 ["R"] s7 fs0 :=
  native_icns_short_circuit env0 ["R"] s7 fs0 rfl

/-- C8 (counterexample): with bundle name `My.App`, the serialized icon
file is named `My.icns` — `PathBuf::set_extension` replaces the text
after the last dot — and not `My.App.icns` as "the bundle name with the
container's extension, including names containing a dot" requires. -/
theorem set_extension_truncates_dotted_name_cex :
    create_icns_file env0 ["R"] sDot fs0 =
      Except.ok (some ["R", "My.icns"],
        ⟨[(["R", "My.icns"],
           some (FileContent.icns [(IconType.RGBA32_128x128, ⟨PixelFormat.RGBA, 128, 128, 2⟩)])),
          (["R"], none)]⟩) ∧
    rustSetExtension "My.App" "icns" = "My.icns" ∧
    ("My.icns" : String) ≠ "My.App" ++ ".icns" := by
  refine ⟨rfl, rfl, ?_⟩
  decide

/-- C8 (amended): whenever synthesis succeeds with an icon file (no
native-extension candidate present), the family is non-empty and is
serialized inside the resources directory to a file whose name is the
bundle name transformed by `set_extension` — equal to the bundle name
plus `.icns` only when the bundle name has no extension of its own —
and that path is returned. -/
theorem icon_file_named_by_set_extension (env : Env) (rd : List String) (s : Settings)
    (fs : FileSys) (dest : List String) (fs2 : FileSys)
    (hno : ∀ c ∈ s.icon_files, hasIcnsExt c = false)
    (h : create_icns_file env rd s fs = Except.ok (some dest, fs2)) :
    dest = rd ++ [rustSetExtension s.bundle_name "icns"] ∧
    ∃ fam, fam.isEmpty = false ∧ readFile fs2 dest = some (FileContent.icns fam) := by
  have hfind : s.icon_files.find? hasIcnsExt = none := by
    rw [List.find?_eq_none]
    intro c hcmem
    rw [hno c hcmem]
    simp
  unfold create_icns_file at h
  split at h
  · simp at h
  · rw [hfind] at h
    split at h
    case h_1 c hcfind => cases hcfind
    case h_2 =>
      split at h
      case h_1 => cases h
      case h_2 family toResize hp1 =>
        split at h
        case h_1 => cases h
        case h_2 family2 hp2 =>
          split at h
          · cases h
          · split at h
            · cases h
            · simp only [Except.ok.injEq, Prod.mk.injEq, Option.some.injEq] at h
              obtain ⟨hdest, hfs2⟩ := h
              subst hdest
              subst hfs2
              refine ⟨rfl, family2, ?_, readFile_writeFileEntry _ _ _⟩
              rename_i hemp _
              cases hx : family2.isEmpty
              · rfl
              · exact absurd hx hemp

/-- C8 (witness): the amended theorem applied to the dotted-name run. -/
theorem icon_file_named_by_set_extension_witness :
    (["R", "My.icns"] : List String) = ["R"] ++ [rustSetExtension sDot.bundle_name "icns"] ∧
    ∃ fam, fam.isEmpty = false ∧
      readFile ⟨[(["R", "My.icns"],
          some (FileContent.icns [(IconType.RGBA32_128x128, ⟨PixelFormat.RGBA, 128, 128, 2⟩)])),
        (["R"], none)]⟩ ["R", "My.icns"] = some (FileContent.icns fam) :=
  icon_file_named_by_set_extension env0 ["R"] sDot fs0 ["R", "My.icns"]
    ⟨[(["R", "My.icns"],
       some (FileContent.icns [(IconType.RGBA32_128x128, ⟨PixelFormat.RGBA, 128, 128, 2⟩)])),
      (["R"], none)]⟩ (by decide) rfl

/-- C9: when the bundle root already exists, the run first removes the
whole old tree — running on the original file system equals running on
the file system with the old tree deleted, so nothing of the old tree
can influence or survive into the result — and a failure of the removal
or of the directory creation makes `bundle_project` return the
corresponding error, aborting the whole assembly. -/
theorem bundle_root_removed_and_failures_fatal (env : Env) (s : Settings) (fs : FileSys) :
    (pathExists fs (app_bundle_path s) = true → env.remove_fails = false →
      bundle_project env s fs = bundle_project env s (removeDirAll fs (app_bundle_path s)) ∧
      ∀ e ∈ (removeDirAll fs (app_bundle_path s)).entries,
        (app_bundle_path s).isPrefixOf e.fst = false) ∧
    (pathExists fs (app_bundle_path s) = true → env.remove_fails = true →
      bundle_project env s fs
        = Except.error ("Failed to remove old " ++ (s.bundle_name ++ ".app"))) ∧
    (env.remove_fails = false → env.create_fails = true →
      bundle_project env s fs = Except.error ("Failed to create bundle directory")) := by
  refine ⟨fun hex hrm => ⟨?_, ?_⟩, fun hex hrm => ?_, fun hrm hcf => ?_⟩
  · unfold bundle_project
    rw [hex, hrm, pathExists_removeDirAll_self]
    simp
  · intro e he
    simp only [removeDirAll, List.mem_filter] at he
    obtain ⟨h1, hne⟩ := he
    cases hq : (app_bundle_path s).isPrefixOf e.fst
    · rfl
    · rw [hq] at hne; simp at hne
  · unfold bundle_project
    rw [hex, hrm]
    simp
  · unfold bundle_project
    cases hex : pathExists fs (app_bundle_path s)
    · simp [hrm, hcf]
    · simp [hrm, hcf]

/-- C9 (witness): the theorem applied to a file system holding a stale
bundle tree, and to an environment whose directory creation fails. -/
theorem bundle_root_removed_and_failures_fatal_witness :
    (bundle_project env0 baseSettings fs9 =
      bundle_project env0 baseSettings (removeDirAll fs9 (app_bundle_path baseSettings))) ∧
    bundle_project envCF baseSettings fs9
      = Except.error ("Failed to create bundle directory") :=
  ⟨((bundle_root_removed_and_failures_fatal env0 baseSettings fs9).1 rfl rfl).1,
   (bundle_root_removed_and_failures_fatal envCF baseSettings fs9).2.2 rfl rfl⟩

/-- C10: for every settings value and optional icon reference, the
generated Info.plist text contains the fixed constants
`CFBundleInfoDictionaryVersion = 6.0` and `CFBundlePackageType = APPL`
and the three capability flags `CSResourcesFileMapped`,
`LSRequiresCarbon` and `NSHighResolutionCapable` all set to true, and
these key blocks occur in the same fixed order regardless of the
input values. -/
theorem info_plist_fixed_keys_and_order (icon : Option String) (s : Settings) :
    ∃ a b c d e f,
      create_info_plist_content icon s =
        a ++ "  <key>CFBundleInfoDictionaryVersion</key>\n  <string>6.0</string>\n"
          ++ b ++ "  <key>CFBundlePackageType</key>\n  <string>APPL</string>\n"
          ++ c ++ "  <key>CSResourcesFileMapped</key>\n  <true/>\n"
          ++ d ++ "  <key>LSRequiresCarbon</key>\n  <true/>\n"
          ++ e ++ "  <key>NSHighResolutionCapable</key>\n  <true/>\n" ++ f := by
  refine ⟨"<?xml version=\"1.0\" encoding=\"UTF-8\"?>\n<!DOCTYPE plist PUBLIC \"-//Apple Computer//DTD PLIST 1.0//EN\" \"http://www.apple.com/DTDs/PropertyList-1.0.dtd\">\n<plist version=\"1.0\">\n<dict>\n"
    ++ "  <key>CFBundleDevelopmentRegion</key>\n  <string>English</string>\n"
    ++ "  <key>CFBundleDisplayName</key>\n  <string>" ++ s.bundle_name ++ "</string>\n"
    ++ "  <key>CFBundleExecutable</key>\n  <string>" ++ s.binary_name ++ "</string>\n"
    ++ (match icon with
        | some name => "  <key>CFBundleIconFile</key>\n  <string>" ++ name ++ "</string>\n"
        | none => "")
    ++ "  <key>CFBundleIdentifier</key>\n  <string>" ++ s.bundle_identifier ++ "</string>\n",
    "  <key>CFBundleName</key>\n  <string>" ++ s.bundle_name ++ "</string>\n",
    "  <key>CFBundleVersion</key>\n  <string>" ++ s.version_string ++ "</string>\n",
    "", "",
    (match s.copyright_string with
     | some copyright =>
        "  <key>NSHumanReadableCopyright</key>\n  <string>" ++ copyright ++ "</string>\n"
     | none => "")
    ++ "</dict>\n</plist>\n", ?_⟩
  unfold create_info_plist_content
  simp only [String.append_assoc, str_empty_append]
